import Mathlib

/-!
# Verification of the surface polarity scorer (`filter/polar_score.py`)

The scorer loads a structure, extracts one backbone carbonyl-carbon (atom
name `C`) position and one carbon-alpha (atom name `CA`) position per
residue, classifies residues by name, builds pairwise distance and angle
weight matrices, and returns an exposure-weighted non-polar fraction.
Floating point is modelled by exact real arithmetic; tensors of shape
`(N,)` and `(N, N)` become functions out of `Fin N`.
-/

open Real

/-- A 3-D coordinate, as one row of the `(N, 3)` coordinate tensors. -/
abbrev Point := ℝ × ℝ × ℝ

/-- Componentwise difference of two coordinates. -/
def psub (p q : Point) : Point := (p.1 - q.1, p.2.1 - q.2.1, p.2.2 - q.2.2)

/-- Euclidean norm of a coordinate (`torch.norm(·, p=2)` on one row). -/
noncomputable def norm3 (p : Point) : ℝ := Real.sqrt (p.1 ^ 2 + p.2.1 ^ 2 + p.2.2 ^ 2)

/-- Dot product of two rows, as computed by `torch.mm` with a transpose. -/
def pdot (p q : Point) : ℝ := p.1 * q.1 + p.2.1 * q.2.1 + p.2.2 * q.2.2

/-- Divide a coordinate componentwise by a scalar (`coords / norm`). -/
noncomputable def pdiv (p : Point) (r : ℝ) : Point := (p.1 / r, p.2.1 / r, p.2.2 / r)

/-- The data `calculate_surface_polar_score` extracts from a parsed
trajectory: per residue, the carbonyl-carbon coordinate (selection
`backbone and name C`), the carbon-alpha coordinate (selection
`backbone and name CA`) and the residue string (`str(residue)`,
e.g. `"VAL1"`).  All three are indexed by the same residue ordering. -/
structure PolarStructure where
  N : ℕ
  c : Fin N → Point
  ca : Fin N → Point
  names : Fin N → String

/-- `non_polar_residues` list from `classify_polarity`. -/
def non_polar_residues : List String := ["ILE", "LEU", "MET", "TRP", "PHE", "VAL"]

/-- `polar_residues` list from `classify_polarity`. -/
def polar_residues : List String := ["SER", "THR", "TYR", "ASN", "GLN"]

/-- One entry of the `non_polar` indicator vector built by
`classify_polarity`: 1 when the first three characters of the residue
string are in `non_polar_residues`, else 0. -/
def nonPolarOf (residue : String) : ℝ :=
  if residue.take 3 ∈ non_polar_residues then 1 else 0

/-- One entry of the `polar` indicator vector built by `classify_polarity`:
the `elif` branch fires only when the non-polar test failed. -/
def polarOf (residue : String) : ℝ :=
  if residue.take 3 ∈ non_polar_residues then 0
  else if residue.take 3 ∈ polar_residues then 1 else 0

/-- The `non_polar` vector of `classify_polarity` for a structure. -/
def non_polar (s : PolarStructure) (i : Fin s.N) : ℝ := nonPolarOf (s.names i)

/-- The `polar` vector of `classify_polarity` for a structure. -/
def polar (s : PolarStructure) (i : Fin s.N) : ℝ := polarOf (s.names i)

/-- `CBs_dis` from `calculate_backbone_neighbors`: pairwise Euclidean
distances between carbonyl-carbon coordinates. -/
noncomputable def CBs_dis (s : PolarStructure) (i j : Fin s.N) : ℝ :=
  norm3 (psub (s.c i) (s.c j))

/-- `normalized` from `calculate_angles`: the carbon-alpha → carbonyl-carbon
difference vector divided by its Euclidean norm. -/
noncomputable def normalizedDir (s : PolarStructure) (i : Fin s.N) : Point :=
  pdiv (psub (s.c i) (s.ca i)) (norm3 (psub (s.c i) (s.ca i)))

/-- `cos_angles` from `calculate_angles`: pairwise dot products of the
normalized directions, clamped to `[-1, 1]` (`torch.clamp`). -/
noncomputable def cos_angles (s : PolarStructure) (i j : Fin s.N) : ℝ :=
  min 1 (max (-1) (pdot (normalizedDir s i) (normalizedDir s j)))

/-- `phi_ij` from `calculate_angles`: `torch.acos` of the clamped cosines. -/
noncomputable def phi_ij (s : PolarStructure) (i j : Fin s.N) : ℝ :=
  Real.arccos (cos_angles s i j)

/-- The scalar distance weight `1 / (1 + exp(d - m))` with `m = 1.0`,
applied elementwise to `CBs_dis` in `calculate_surface_polar_score`. -/
noncomputable def distance_weight (d : ℝ) : ℝ := 1 / (1 + Real.exp (d - 1))

/-- The scalar angle weight `((cos(pi - phi) + a) / (1 + a)) ** b` with
`a = 0.5`, `b = 2.0`, applied elementwise to `phi_ij`. -/
noncomputable def angle_weight (phi : ℝ) : ℝ :=
  ((Real.cos (Real.pi - phi) + 0.5) / 1.5) ^ 2

/-- `distance_weights` matrix of `calculate_surface_polar_score`. -/
noncomputable def distance_weights (s : PolarStructure) (i j : Fin s.N) : ℝ :=
  distance_weight (CBs_dis s i j)

/-- `angle_weights` matrix of `calculate_surface_polar_score`. -/
noncomputable def angle_weights (s : PolarStructure) (i j : Fin s.N) : ℝ :=
  angle_weight (phi_ij s i j)

/-- `combined_weights` after `masked_fill`: the elementwise product of the
distance and angle weights with the diagonal forced to 0. -/
noncomputable def combined_weights (s : PolarStructure) (i j : Fin s.N) : ℝ :=
  if i = j then 0 else distance_weights s i j * angle_weights s i j

/-- `n_i = torch.sum(combined_weights, dim=1)`: the neighbor density of
residue `i`. -/
noncomputable def n_i (s : PolarStructure) (i : Fin s.N) : ℝ :=
  ∑ j, combined_weights s i j

/-- `torch.median` of a multiset of `len` reals: the element at index
`(len - 1) / 2` of the ascending sort, i.e. the lower of the two middle
values when `len` is even. -/
noncomputable def torchMedian (m : Multiset ℝ) (len : ℕ) : ℝ :=
  (Multiset.sort (· ≤ ·) m).getD ((len - 1) / 2) 0

/-- `median_n_i = torch.median(n_i)` over the neighbor-density vector. -/
noncomputable def median_n_i (s : PolarStructure) : ℝ :=
  torchMedian (Finset.univ.val.map (n_i s)) s.N

/-- `torch.sigmoid`: the logistic function `1 / (1 + exp(-x))`. -/
noncomputable def sigmoid (x : ℝ) : ℝ := 1 / (1 + Real.exp (-x))

/-- `sigmoid_term = 1 - torch.sigmoid(n_i - median_n_i)`: the per-residue
exposure term. -/
noncomputable def sigmoid_term (s : PolarStructure) (i : Fin s.N) : ℝ :=
  1 - sigmoid (n_i s i - median_n_i s)

/-- `numerator = torch.sum(non_polar * sigmoid_term)`. -/
noncomputable def score_numerator (s : PolarStructure) : ℝ :=
  ∑ i, non_polar s i * sigmoid_term s i

/-- `denominator = torch.sum(sigmoid_term)`. -/
noncomputable def score_denominator (s : PolarStructure) : ℝ :=
  ∑ i, sigmoid_term s i

/-- `polar_score = numerator / denominator`, the value returned (via
`.item()`) by `calculate_surface_polar_score` on a well-formed input. -/
noncomputable def polar_score (s : PolarStructure) : ℝ :=
  score_numerator s / score_denominator s

/-! ## The fallible entry point and the batch driver

`calculate_surface_polar_score` wraps the computation in `try/except`:
any exception is caught and `None` is returned.  The tensor arithmetic
follows numpy/torch broadcasting, so a selection length that mismatches
another shape does not always raise: a size-1 dimension stretches to the
other size.  With `L` carbonyl carbons, `M` carbon-alphas and `R`
residues, the direction difference `CBs_coords - CAs_coords` needs
`L`/`M` broadcast-compatible (giving `K` rows); the multiply of the
`(L, L)` distance weights with the `(K, K)` angle weights is then
automatically compatible (`L` is 1 or `K`) and yields a `(K, K)` matrix;
`torch.median` raises on `K = 0`; and the numerator product needs
`R`/`K` broadcast-compatible (giving `Q` summands).  Every other case —
and only those — raises and is reported as `None`. -/

/-- The per-residue data as parsed from a file, before any shape check:
carbonyl-carbon coordinates, carbon-alpha coordinates, residue strings. -/
structure RawStructure where
  cPos : List Point
  caPos : List Point
  resNames : List String

/-- One-dimension numpy/torch broadcast of two sizes: equal sizes pass
through, a size of 1 stretches to the other size, anything else raises. -/
def bcast (a b : ℕ) : Option ℕ :=
  if a = b then some a else if a = 1 then some b else if b = 1 then some a else none

/-- The matched-shape case: both backbone selections have exactly one
atom per residue and the structure is nonempty.  This is a sufficient
condition for the computation to complete; it is not necessary, because
broadcasting also lets size-1 selections against a different residue
count complete (see `calculate_surface_polar_score`). -/
def RawStructure.wellFormed (s : RawStructure) : Prop :=
  s.cPos.length = s.resNames.length ∧ s.caPos.length = s.resNames.length ∧
    1 ≤ s.resNames.length

instance (s : RawStructure) : Decidable s.wellFormed :=
  decidable_of_iff
    (s.cPos.length = s.resNames.length ∧ s.caPos.length = s.resNames.length ∧
      1 ≤ s.resNames.length) Iff.rfl

/-- Package a raw structure's lists as residue-indexed functions.  The
defaults are never read on a matched-shape input. -/
def RawStructure.toStructure (s : RawStructure) : PolarStructure where
  N := s.resNames.length
  c := fun i => s.cPos.getD i (0, 0, 0)
  ca := fun i => s.caPos.getD i (0, 0, 0)
  names := fun i => s.resNames.getD i ""

/-- Row `k` of `normalized` under broadcasting: the subtraction
`CBs_coords - CAs_coords` stretches a length-1 selection across the
other, so row `k` of a singleton selection is its only row. -/
noncomputable def bc_dir (s : RawStructure) (k : ℕ) : Point :=
  pdiv
    (psub (s.cPos.getD (if s.cPos.length = 1 then 0 else k) (0, 0, 0))
      (s.caPos.getD (if s.caPos.length = 1 then 0 else k) (0, 0, 0)))
    (norm3 (psub (s.cPos.getD (if s.cPos.length = 1 then 0 else k) (0, 0, 0))
      (s.caPos.getD (if s.caPos.length = 1 then 0 else k) (0, 0, 0))))

/-- Entry `(i, j)` of `combined_weights` after the broadcast multiply of
the `(L, L)` distance weights with the `(K, K)` angle weights (a row and
column index into the distance weights collapses to 0 when `L = 1`) and
after `masked_fill` zeroes the diagonal of the result. -/
noncomputable def bc_combined (s : RawStructure) (i j : ℕ) : ℝ :=
  if i = j then 0
  else
    distance_weight (norm3 (psub
        (s.cPos.getD (if s.cPos.length = 1 then 0 else i) (0, 0, 0))
        (s.cPos.getD (if s.cPos.length = 1 then 0 else j) (0, 0, 0)))) *
      angle_weight (Real.arccos (min 1 (max (-1)
        (pdot (bc_dir s i) (bc_dir s j)))))

/-- `n_i` over the broadcast `(K, K)` combined-weight matrix. -/
noncomputable def bc_n (s : RawStructure) (K i : ℕ) : ℝ :=
  ∑ j ∈ Finset.range K, bc_combined s i j

/-- `torch.median` of the `(K,)` neighbor-density tensor. -/
noncomputable def bc_median (s : RawStructure) (K : ℕ) : ℝ :=
  torchMedian ((Multiset.range K).map (bc_n s K)) K

/-- The `(K,)` exposure tensor `1 - sigmoid(n_i - median_n_i)`. -/
noncomputable def bc_e (s : RawStructure) (K i : ℕ) : ℝ :=
  1 - sigmoid (bc_n s K i - bc_median s K)

/-- The final quotient: the numerator broadcasts the `(R,)` indicator
vector against the `(K,)` exposure tensor into `Q` summands; the
denominator sums the exposure tensor. -/
noncomputable def bc_score (s : RawStructure) (K Q : ℕ) : ℝ :=
  (∑ q ∈ Finset.range Q,
      nonPolarOf (s.resNames.getD (if s.resNames.length = 1 then 0 else q) "") *
        bc_e s K (if K = 1 then 0 else q)) /
    ∑ i ∈ Finset.range K, bc_e s K i

/-- `calculate_surface_polar_score`: the broadcast score when every
tensor shape is compatible and the exposure tensor is nonempty, `None`
(the untyped failure marker logged by the `except` clause) on any input
whose computation raises. -/
noncomputable def calculate_surface_polar_score (s : RawStructure) : Option ℝ :=
  match bcast s.cPos.length s.caPos.length with
  | none => none
  | some K =>
      if K = 0 then none
      else
        match bcast s.resNames.length K with
        | none => none
        | some Q => some (bc_score s K Q)

/-- One iteration of the loop in `filter_pdbs_by_polar_score`: a `None`
score is logged and skipped; a score `≤ threshold` copies the file and
increments `passed_files`; otherwise the file is only logged. -/
noncomputable def filter_step (threshold : ℝ) (acc : List String × ℕ)
    (file : String × RawStructure) : List String × ℕ :=
  match calculate_surface_polar_score file.2 with
  | none => acc
  | some sc => if sc ≤ threshold then (acc.1 ++ [file.1], acc.2 + 1) else acc

/-- `filter_pdbs_by_polar_score`: fold the per-file loop over the listed
files, returning the names copied to the output directory and the
`passed_files` count. -/
noncomputable def filter_pdbs_by_polar_score (files : List (String × RawStructure))
    (threshold : ℝ) : List String × ℕ :=
  files.foldl (filter_step threshold) ([], 0)

/-! ## Relabeling residues

Applying one permutation to the carbonyl-carbon coordinates, the
carbon-alpha coordinates and the residue strings conjugates every pairwise
matrix, permutes the neighbor-density vector (leaving its multiset — hence
its median — unchanged) and permutes the summands of the numerator and
denominator. -/

/-- The structure obtained by relabeling residues along a permutation,
applied consistently to both coordinate sets and the residue strings. -/
def PolarStructure.permute (s : PolarStructure) (σ : Equiv.Perm (Fin s.N)) :
    PolarStructure :=
  ⟨s.N, fun i => s.c (σ i), fun i => s.ca (σ i), fun i => s.names (σ i)⟩

/-! ## The score formula as stated in the specification

These definitions are transcribed from the specification text, to be
compared with the embedding of the source above.  `median` is read with
the convention of the source's `torch.median` (the lower of the two middle
values for an even count), which the specification leaves unspecified. -/

/-- Spec: `D`, the pairwise Euclidean distance matrix over
carbonyl-carbon positions. -/
noncomputable def spec_D (s : PolarStructure) (i j : Fin s.N) : ℝ :=
  norm3 (psub (s.c i) (s.c j))

/-- Spec: the normalized carbon-alpha → carbonyl-carbon direction vector. -/
noncomputable def spec_dir (s : PolarStructure) (i : Fin s.N) : Point :=
  pdiv (psub (s.c i) (s.ca i)) (norm3 (psub (s.c i) (s.ca i)))

/-- Spec: `Φ`, the pairwise angle matrix over the normalized direction
vectors, with dot products clamped to `[-1, 1]` before arccos. -/
noncomputable def spec_Phi (s : PolarStructure) (i j : Fin s.N) : ℝ :=
  Real.arccos (min 1 (max (-1) (pdot (spec_dir s i) (spec_dir s j))))

/-- Spec: `W_d[i][j] = 1 / (1 + exp(D[i][j] - 1.0))`. -/
noncomputable def spec_Wd (s : PolarStructure) (i j : Fin s.N) : ℝ :=
  1 / (1 + Real.exp (spec_D s i j - 1))

/-- Spec: `W_a[i][j] = ((cos(π - Φ[i][j]) + 0.5) / 1.5)^2`. -/
noncomputable def spec_Wa (s : PolarStructure) (i j : Fin s.N) : ℝ :=
  ((Real.cos (Real.pi - spec_Phi s i j) + 0.5) / 1.5) ^ 2

/-- Spec: `W[i][j] = W_d[i][j] * W_a[i][j]` with the diagonal forced to 0. -/
noncomputable def spec_W (s : PolarStructure) (i j : Fin s.N) : ℝ :=
  if i = j then 0 else spec_Wd s i j * spec_Wa s i j

/-- Spec: `n_i = Σ_j W[i][j]`. -/
noncomputable def spec_n (s : PolarStructure) (i : Fin s.N) : ℝ :=
  ∑ j, spec_W s i j

/-- Spec: `e_i = 1 - sigmoid(n_i - median(n))`. -/
noncomputable def spec_e (s : PolarStructure) (i : Fin s.N) : ℝ :=
  1 - sigmoid (spec_n s i - torchMedian (Finset.univ.val.map (spec_n s)) s.N)

/-- Spec: `score = Σ_i (nonpolar[i] * e_i) / Σ_i e_i`. -/
noncomputable def spec_score (s : PolarStructure) : ℝ :=
  (∑ i, nonPolarOf (s.names i) * spec_e s i) / ∑ i, spec_e s i

/-! ## Characterizing the batch driver -/

/-- The per-file copy decision described by the specification: a file is
copied exactly when its score was computed and is at most the threshold;
a file whose score computation failed is never copied. -/
noncomputable def copy_decision (threshold : ℝ) (file : String × RawStructure) :
    Option String :=
  match calculate_surface_polar_score file.2 with
  | none => none
  | some sc => if sc ≤ threshold then some file.1 else none

/-! ## Concrete inputs used for witnesses and counterexamples -/

/-- A one-residue structure with the given residue string. -/
def mkSingle (nm : String) : PolarStructure :=
  ⟨1, fun _ => (0, 0, 0), fun _ => (0, 0, 1), fun _ => nm⟩

/-- A parsed single-valine structure: one carbonyl carbon, one
carbon-alpha, one residue. -/
def singleValRaw : RawStructure :=
  ⟨[(0, 0, 0)], [(0, 0, 1)], ["VAL1"]⟩

/-- A parsed single-glycine structure. -/
def singleGlyRaw : RawStructure :=
  ⟨[(1, 0, 0)], [(1, 0, 1)], ["GLY1"]⟩

/-- Three residues but only two carbonyl-carbon backbone atoms: the tensor
arithmetic of the source raises on the shape mismatch. -/
def missingBackboneRaw : RawStructure :=
  ⟨[(0, 0, 0), (1, 0, 0)], [(0, 0, 1), (1, 0, 1), (2, 0, 1)], ["ALA1", "GLY2", "SER3"]⟩

/-- A file from which no residue was parsed. -/
def emptyRaw : RawStructure := ⟨[], [], []⟩

/-- One backbone-complete valine plus a backbone-less water residue: both
backbone selections have length 1 against two residues, a mismatch that
broadcasting completes instead of raising. -/
def valWaterRaw : RawStructure :=
  ⟨[(0, 0, 0)], [(0, 0, 1)], ["VAL1", "HOH2"]⟩
/-! ## Basic facts about the logistic pieces -/

lemma sigmoid_pos (x : ℝ) : 0 < sigmoid x := by
  rw [sigmoid]; positivity

lemma sigmoid_lt_one (x : ℝ) : sigmoid x < 1 := by
  have h := Real.exp_pos (-x)
  rw [sigmoid, div_lt_one (by linarith)]
  linarith

lemma sigmoid_zero : sigmoid 0 = 1 / 2 := by
  rw [sigmoid, neg_zero, Real.exp_zero]; norm_num

lemma sigmoid_term_pos (s : PolarStructure) (i : Fin s.N) : 0 < sigmoid_term s i := by
  have h := sigmoid_lt_one (n_i s i - median_n_i s)
  rw [sigmoid_term]; linarith

lemma sigmoid_term_lt_one (s : PolarStructure) (i : Fin s.N) : sigmoid_term s i < 1 := by
  have h := sigmoid_pos (n_i s i - median_n_i s)
  rw [sigmoid_term]; linarith

lemma non_polar_nonneg (s : PolarStructure) (i : Fin s.N) : 0 ≤ non_polar s i := by
  rw [non_polar, nonPolarOf]; split <;> norm_num

lemma non_polar_le_one (s : PolarStructure) (i : Fin s.N) : non_polar s i ≤ 1 := by
  rw [non_polar, nonPolarOf]; split <;> norm_num

lemma score_denominator_nonneg (s : PolarStructure) : 0 ≤ score_denominator s :=
  Finset.sum_nonneg fun i _ => le_of_lt (sigmoid_term_pos s i)

lemma score_denominator_pos (s : PolarStructure) (h : 1 ≤ s.N) :
    0 < score_denominator s := by
  have : Nonempty (Fin s.N) := ⟨⟨0, h⟩⟩
  exact Finset.sum_pos (fun i _ => sigmoid_term_pos s i) Finset.univ_nonempty

/-! ## Evaluation on a single-residue structure

With one residue, the masked diagonal zeroes the only entry of the
combined weight matrix, so the neighbor density and its median are both
0 and every exposure term equals `1 - sigmoid 0 = 1/2`. -/

lemma n_i_fin_one (c ca : Fin 1 → Point) (nm : Fin 1 → String) (i : Fin 1) :
    n_i ⟨1, c, ca, nm⟩ i = 0 := by
  have hi : i = 0 := Subsingleton.elim i 0
  subst hi
  rw [n_i, Fin.sum_univ_one, combined_weights, if_pos rfl]

lemma median_n_i_fin_one (c ca : Fin 1 → Point) (nm : Fin 1 → String) :
    median_n_i ⟨1, c, ca, nm⟩ = 0 := by
  rw [median_n_i]
  have hmap : (Finset.univ.val.map (n_i (⟨1, c, ca, nm⟩ : PolarStructure))) =
      {(0 : ℝ)} := by
    rw [Finset.univ_unique, Finset.singleton_val, Multiset.map_singleton, n_i_fin_one]
  rw [hmap, torchMedian, Multiset.sort_singleton]
  simp

lemma sigmoid_term_fin_one (c ca : Fin 1 → Point) (nm : Fin 1 → String) (i : Fin 1) :
    sigmoid_term ⟨1, c, ca, nm⟩ i = 1 / 2 := by
  rw [sigmoid_term, n_i_fin_one, median_n_i_fin_one, sub_zero, sigmoid_zero]
  norm_num

lemma score_denominator_fin_one (c ca : Fin 1 → Point) (nm : Fin 1 → String) :
    score_denominator ⟨1, c, ca, nm⟩ = 1 / 2 := by
  rw [score_denominator, Fin.sum_univ_one, sigmoid_term_fin_one]

lemma polar_score_fin_one (c ca : Fin 1 → Point) (nm : Fin 1 → String) :
    polar_score ⟨1, c, ca, nm⟩ = nonPolarOf (nm 0) := by
  rw [polar_score, score_numerator, score_denominator, Fin.sum_univ_one,
    Fin.sum_univ_one, sigmoid_term_fin_one, non_polar]
  rw [mul_div_assoc, div_self (by norm_num : (1 : ℝ) / 2 ≠ 0), mul_one]

lemma score_denominator_N_one (s : PolarStructure) (h : s.N = 1) :
    score_denominator s = 1 / 2 := by
  rcases s with ⟨N, c, ca, nm⟩
  dsimp only at h
  subst h
  exact score_denominator_fin_one c ca nm

lemma polar_score_N_one (s : PolarStructure) (h : s.N = 1) (i : Fin s.N) :
    polar_score s = nonPolarOf (s.names i) := by
  rcases s with ⟨N, c, ca, nm⟩
  dsimp only at h i ⊢
  subst h
  have hi : i = 0 := Subsingleton.elim i 0
  subst hi
  exact polar_score_fin_one c ca nm

/-! ### Evaluating the broadcast computation with a single exposure row -/

lemma bc_n_one (s : RawStructure) : bc_n s 1 0 = 0 := by
  rw [bc_n, Finset.sum_range_one, bc_combined, if_pos rfl]

lemma bc_median_one (s : RawStructure) : bc_median s 1 = 0 := by
  rw [bc_median]
  have h : (Multiset.range 1).map (bc_n s 1) = {(0 : ℝ)} := by
    rw [show Multiset.range 1 = ({0} : Multiset ℕ) from rfl,
      Multiset.map_singleton, bc_n_one]
  rw [h, torchMedian, Multiset.sort_singleton]
  simp

lemma bc_e_one (s : RawStructure) : bc_e s 1 0 = 1 / 2 := by
  rw [bc_e, bc_n_one, bc_median_one, sub_zero, sigmoid_zero]
  norm_num

lemma bc_score_single (s : RawStructure) :
    bc_score s 1 1 = nonPolarOf (s.resNames.getD 0 "") := by
  rw [bc_score, Finset.sum_range_one, Finset.sum_range_one]
  simp only [ite_self]
  rw [bc_e_one, mul_div_assoc, div_self (by norm_num : (1 : ℝ) / 2 ≠ 0), mul_one]

lemma calc_matched_one (s : RawStructure) (hl : s.cPos.length = 1)
    (hm : s.caPos.length = 1) (hr : s.resNames.length = 1) :
    calculate_surface_polar_score s = some (bc_score s 1 1) := by
  rw [calculate_surface_polar_score, hl, hm, hr]
  rfl

lemma calc_missingBackbone_none :
    calculate_surface_polar_score missingBackboneRaw = none := rfl

lemma calc_empty_none : calculate_surface_polar_score emptyRaw = none := rfl

/-! ### On matched shapes the broadcast computation is the plain one

With one backbone atom of each kind per residue, every broadcast index is
the identity, so `bc_score` coincides with `polar_score` of the packaged
structure. -/

lemma bc_idx_eq (len R : ℕ) (hlen : len = R) (i : ℕ) (hi : i < R) :
    (if len = 1 then 0 else i) = i := by
  by_cases h1 : len = 1
  · rw [if_pos h1]
    omega
  · rw [if_neg h1]

lemma bc_dir_matched (s : RawStructure) (hwf : s.wellFormed) (k : ℕ)
    (hk : k < s.resNames.length) :
    bc_dir s k = normalizedDir s.toStructure ⟨k, hk⟩ := by
  rw [bc_dir, bc_idx_eq s.cPos.length s.resNames.length hwf.1 k hk,
    bc_idx_eq s.caPos.length s.resNames.length hwf.2.1 k hk]
  rfl

lemma bc_combined_matched (s : RawStructure) (hwf : s.wellFormed) (i j : ℕ)
    (hi : i < s.resNames.length) (hj : j < s.resNames.length) :
    bc_combined s i j = combined_weights s.toStructure ⟨i, hi⟩ ⟨j, hj⟩ := by
  by_cases hij : i = j
  · subst hij
    rw [bc_combined, if_pos rfl, combined_weights, if_pos rfl]
  · have hij2 : (⟨i, hi⟩ : Fin s.toStructure.N) ≠ ⟨j, hj⟩ :=
      Fin.ne_of_val_ne hij
    rw [bc_combined, if_neg hij, combined_weights, if_neg hij2,
      bc_idx_eq s.cPos.length s.resNames.length hwf.1 i hi,
      bc_idx_eq s.cPos.length s.resNames.length hwf.1 j hj,
      bc_dir_matched s hwf i hi, bc_dir_matched s hwf j hj]
    rfl

lemma bc_n_matched (s : RawStructure) (hwf : s.wellFormed) (i : ℕ)
    (hi : i < s.resNames.length) :
    bc_n s s.resNames.length i = n_i s.toStructure ⟨i, hi⟩ := by
  rw [bc_n, n_i,
    ← Fin.sum_univ_eq_sum_range (fun j => bc_combined s i j) s.resNames.length]
  exact Finset.sum_congr rfl fun j _ => bc_combined_matched s hwf i j.val hi j.isLt

lemma bc_median_matched (s : RawStructure) (hwf : s.wellFormed) :
    bc_median s s.resNames.length = median_n_i s.toStructure := by
  have h4 : (Finset.univ : Finset (Fin s.resNames.length)).map Fin.valEmbedding =
      Finset.range s.resNames.length := by
    rw [Fin.map_valEmbedding_univ, Nat.Iio_eq_range]
  have h5 := congrArg Finset.val h4
  rw [Finset.map_val, Finset.range_val] at h5
  have hmap : (Multiset.range s.resNames.length).map (bc_n s s.resNames.length) =
      Finset.univ.val.map (n_i s.toStructure) := by
    have h1 : Finset.univ.val.map (n_i s.toStructure) =
        Finset.univ.val.map
          (fun j : Fin s.resNames.length => bc_n s s.resNames.length j.val) :=
      Multiset.map_congr rfl fun j _ => (bc_n_matched s hwf j.val j.isLt).symm
    have h2 : Finset.univ.val.map
        (fun j : Fin s.resNames.length => bc_n s s.resNames.length j.val) =
        ((Finset.univ : Finset (Fin s.resNames.length)).val.map
          (⇑Fin.valEmbedding)).map (bc_n s s.resNames.length) := by
      rw [Multiset.map_map]
      rfl
    rw [h1, h2, h5]
  rw [bc_median, median_n_i, hmap]
  rfl

lemma bc_e_matched (s : RawStructure) (hwf : s.wellFormed) (i : ℕ)
    (hi : i < s.resNames.length) :
    bc_e s s.resNames.length i = sigmoid_term s.toStructure ⟨i, hi⟩ := by
  rw [bc_e, sigmoid_term, bc_n_matched s hwf i hi, bc_median_matched s hwf]

lemma bc_score_matched (s : RawStructure) (hwf : s.wellFormed) :
    bc_score s s.resNames.length s.resNames.length = polar_score s.toStructure := by
  rw [bc_score, polar_score, score_numerator, score_denominator]
  congr 1
  · rw [← Fin.sum_univ_eq_sum_range
      (fun q => nonPolarOf
          (s.resNames.getD (if s.resNames.length = 1 then 0 else q) "") *
        bc_e s s.resNames.length (if s.resNames.length = 1 then 0 else q))
      s.resNames.length]
    refine Finset.sum_congr rfl fun q _ => ?_
    rw [bc_idx_eq s.resNames.length s.resNames.length rfl q.val q.isLt,
      bc_e_matched s hwf q.val q.isLt]
    rfl
  · rw [← Fin.sum_univ_eq_sum_range
      (fun i => bc_e s s.resNames.length i) s.resNames.length]
    exact Finset.sum_congr rfl fun i _ => bc_e_matched s hwf i.val i.isLt

lemma calc_matched (s : RawStructure) (hwf : s.wellFormed) :
    calculate_surface_polar_score s = some (polar_score s.toStructure) := by
  have h0 : ¬s.resNames.length = 0 := by
    have h2 := hwf.2.2
    omega
  have hb : bcast s.resNames.length s.resNames.length = some s.resNames.length := by
    rw [bcast, if_pos rfl]
  rw [calculate_surface_polar_score, hwf.1, hwf.2.1]
  simp only [hb, h0, if_false]
  rw [bc_score_matched s hwf]

lemma combined_weights_permute (s : PolarStructure) (σ : Equiv.Perm (Fin s.N))
    (i j : Fin s.N) :
    combined_weights (s.permute σ) i j = combined_weights s (σ i) (σ j) := by
  by_cases h : i = j
  · subst h
    rw [combined_weights, combined_weights, if_pos rfl, if_pos rfl]
  · have h2 : σ i ≠ σ j := fun he => h (σ.injective he)
    rw [combined_weights, combined_weights, if_neg h, if_neg h2]
    rfl

lemma n_i_permute (s : PolarStructure) (σ : Equiv.Perm (Fin s.N)) (i : Fin s.N) :
    n_i (s.permute σ) i = n_i s (σ i) := by
  calc n_i (s.permute σ) i = ∑ j, combined_weights s (σ i) (σ j) :=
        Finset.sum_congr rfl fun j _ => combined_weights_permute s σ i j
    _ = ∑ j, combined_weights s (σ i) j := Equiv.sum_comp σ _
    _ = n_i s (σ i) := rfl

lemma median_n_i_permute (s : PolarStructure) (σ : Equiv.Perm (Fin s.N)) :
    median_n_i (s.permute σ) = median_n_i s := by
  rw [median_n_i, median_n_i]
  have h1 : Finset.univ.val.map (n_i (s.permute σ)) =
      Finset.univ.val.map (fun i => n_i s (σ i)) :=
    Multiset.map_congr rfl fun i _ => n_i_permute s σ i
  have h2 : Finset.univ.val.map (fun i => n_i s (σ i)) =
      (Finset.univ.val.map σ).map (n_i s) := by
    rw [Multiset.map_map]
    rfl
  have h3 : Finset.univ.val.map (⇑σ) = Finset.univ.val := by
    have h4 : (Finset.univ.map σ.toEmbedding).val = Finset.univ.val := by
      rw [Finset.map_univ_equiv]
    rw [Finset.map_val, Equiv.coe_toEmbedding] at h4
    exact h4
  rw [h1, h2, h3]
  rfl

lemma sigmoid_term_permute (s : PolarStructure) (σ : Equiv.Perm (Fin s.N))
    (i : Fin s.N) :
    sigmoid_term (s.permute σ) i = sigmoid_term s (σ i) := by
  rw [sigmoid_term, sigmoid_term, n_i_permute, median_n_i_permute]

lemma foldl_filter_spec (t : ℝ) (files : List (String × RawStructure))
    (acc : List String × ℕ) :
    files.foldl (filter_step t) acc =
      (acc.1 ++ files.filterMap (copy_decision t),
        acc.2 + (files.filterMap (copy_decision t)).length) := by
  induction files generalizing acc with
  | nil => simp
  | cons f fs ih =>
    rw [List.foldl_cons, ih]
    cases h : calculate_surface_polar_score f.2 with
    | none => simp [filter_step, copy_decision, h]
    | some sc =>
      by_cases hsc : sc ≤ t
      · refine Prod.ext ?_ ?_ <;>
          simp [filter_step, copy_decision, h, hsc] <;> omega
      · simp [filter_step, copy_decision, h, hsc]


/-! ## Claims -/

/-- C1: for every structure with `N ≥ 1` residues, the score computed by
the source — `calculate_surface_polar_score` via `polar_score` — equals
the specification formula `Σ_i (nonpolar[i]·e_i) / Σ_i e_i` with
`e_i = 1 - sigmoid(n_i - median(n))`, `n_i = Σ_j W[i][j]`,
`W = W_d·W_a` with zero diagonal, `W_d[i][j] = 1/(1+exp(D[i][j]-1.0))`,
`W_a[i][j] = ((cos(π-Φ[i][j])+0.5)/1.5)^2`, `D` the pairwise Euclidean
distances of carbonyl carbons, and `Φ` the pairwise angles of the
normalized carbon-alpha→carbonyl-carbon directions with clamped dot
products. -/
theorem polar_score_matches_spec (s : PolarStructure) (h : 1 ≤ s.N) :
    spec_score s = polar_score s := rfl

/-- Witness for `polar_score_matches_spec` on a concrete one-residue
structure. -/
theorem polar_score_matches_spec_witness :
    spec_score (mkSingle "ALA1") = polar_score (mkSingle "ALA1") :=
  polar_score_matches_spec (mkSingle "ALA1") (le_refl 1)

/-- C2: whenever the exposure denominator `Σ_i e_i` is nonzero, the score
lies in the closed interval `[0, 1]`. -/
theorem polar_score_mem_unit_interval (s : PolarStructure)
    (h : score_denominator s ≠ 0) :
    0 ≤ polar_score s ∧ polar_score s ≤ 1 := by
  have hnum_nonneg : 0 ≤ score_numerator s :=
    Finset.sum_nonneg fun i _ =>
      mul_nonneg (non_polar_nonneg s i) (le_of_lt (sigmoid_term_pos s i))
  have hnum_le : score_numerator s ≤ score_denominator s :=
    Finset.sum_le_sum fun i _ => by
      calc non_polar s i * sigmoid_term s i ≤ 1 * sigmoid_term s i :=
            mul_le_mul_of_nonneg_right (non_polar_le_one s i)
              (le_of_lt (sigmoid_term_pos s i))
        _ = sigmoid_term s i := one_mul _
  have hden_pos : 0 < score_denominator s :=
    lt_of_le_of_ne (score_denominator_nonneg s) (Ne.symm h)
  exact ⟨div_nonneg hnum_nonneg (le_of_lt hden_pos),
    (div_le_one hden_pos).mpr hnum_le⟩

/-- Witness for `polar_score_mem_unit_interval` on a concrete one-residue
structure whose denominator is `1/2`. -/
theorem polar_score_mem_unit_interval_witness :
    0 ≤ polar_score (mkSingle "THR1") ∧ polar_score (mkSingle "THR1") ≤ 1 :=
  polar_score_mem_unit_interval (mkSingle "THR1")
    (by rw [show score_denominator (mkSingle "THR1") = 1 / 2 from
          score_denominator_fin_one _ _ _]; norm_num)

/-- C3 counterexample: on a single-residue structure the scorer does not
fail at all — there is no `DegenerateInputError` anywhere in the code and
the `try` body completes — it returns the numeric score 1 (the valine's
non-polar indicator), because the denominator is `1/2`, not zero. -/
theorem single_residue_returns_numeric_score :
    calculate_surface_polar_score singleValRaw = some 1 := by
  rw [calc_matched_one singleValRaw rfl rfl rfl, bc_score_single]
  rw [show singleValRaw.resNames.getD 0 "" = "VAL1" from rfl, nonPolarOf,
    if_pos (by decide)]

/-- C3 amended: a single-residue structure does not make the scorer fail
(the code has no `DegenerateInputError`); its denominator is `1/2`, which
is nonzero, and the scorer returns the sole residue's non-polar
indicator. -/
theorem single_residue_score_well_defined (raw : RawStructure)
    (hwf : raw.wellFormed) (h1 : raw.resNames.length = 1) :
    calculate_surface_polar_score raw =
        some (nonPolarOf (raw.resNames.getD 0 "")) ∧
      score_denominator raw.toStructure = 1 / 2 := by
  have hn : raw.toStructure.N = 1 := h1
  have hl : raw.cPos.length = 1 := by rw [hwf.1, h1]
  have hm : raw.caPos.length = 1 := by rw [hwf.2.1, h1]
  constructor
  · rw [calc_matched_one raw hl hm h1, bc_score_single]
  · exact score_denominator_N_one raw.toStructure hn

/-- Witness for `single_residue_score_well_defined` on a concrete
single-glycine structure. -/
theorem single_residue_score_well_defined_witness :
    calculate_surface_polar_score singleGlyRaw = some (nonPolarOf "GLY1") ∧
      score_denominator singleGlyRaw.toStructure = 1 / 2 :=
  single_residue_score_well_defined singleGlyRaw (by decide) rfl

/-- C4 counterexample: the failure report is not a typed `StructureError`.
The source defines no such class; every exception is caught by a bare
`except Exception` and reported as the same untyped `None` — a structure
missing backbone atoms and an empty, unparseable structure are
indistinguishable in the result. -/
theorem failure_report_is_untyped_none :
    calculate_surface_polar_score missingBackboneRaw = none ∧
      calculate_surface_polar_score emptyRaw = none :=
  ⟨calc_missingBackbone_none, calc_empty_none⟩

/-- C4 amended: the scorer reports failure by returning `None` (untyped —
no `StructureError` exists in the code), and the batch driver logs and
skips such a file and continues: the run over any batch containing a
failing file equals the run over the batch with that file removed, so no
per-file failure aborts the batch.  The failure report happens only when
the shapes are broadcast-incompatible (or the structure is empty): a
structure in which the backbone selections have length 1 against a
different residue count — one backbone-complete valine plus a
backbone-less water — does not fail but broadcasts to the numeric
score 1. -/
theorem driver_skips_failed_file :
    (∀ (pre post : List (String × RawStructure)) (bad : String × RawStructure)
        (t : ℝ), calculate_surface_polar_score bad.2 = none →
        filter_pdbs_by_polar_score (pre ++ bad :: post) t =
          filter_pdbs_by_polar_score (pre ++ post) t) ∧
      calculate_surface_polar_score valWaterRaw = some 1 := by
  constructor
  · intro pre post bad t hfail
    rw [filter_pdbs_by_polar_score, filter_pdbs_by_polar_score,
      List.foldl_append, List.foldl_append, List.foldl_cons]
    congr 1
    simp [filter_step, hfail]
  · rw [show calculate_surface_polar_score valWaterRaw =
        some (bc_score valWaterRaw 1 2) from rfl]
    congr 1
    rw [bc_score, show (2 : ℕ) = 1 + 1 from rfl, Finset.sum_range_succ,
      Finset.sum_range_one, Finset.sum_range_one]
    show (nonPolarOf "VAL1" * bc_e valWaterRaw 1 0 +
        nonPolarOf "HOH2" * bc_e valWaterRaw 1 0) / bc_e valWaterRaw 1 0 = 1
    rw [bc_e_one,
      show nonPolarOf "VAL1" = 1 from by rw [nonPolarOf, if_pos (by decide)],
      show nonPolarOf "HOH2" = 0 from by rw [nonPolarOf, if_neg (by decide)]]
    norm_num

/-- Witness for `driver_skips_failed_file`: a batch of one good and one
backbone-deficient file gives the same result as the good file alone. -/
theorem driver_skips_failed_file_witness :
    filter_pdbs_by_polar_score
        [("good.pdb", singleGlyRaw), ("bad.pdb", missingBackboneRaw)] 1 =
      filter_pdbs_by_polar_score [("good.pdb", singleGlyRaw)] 1 :=
  driver_skips_failed_file.1 [("good.pdb", singleGlyRaw)] []
    ("bad.pdb", missingBackboneRaw) 1 calc_missingBackbone_none

/-- C5: relabeling the residues along any permutation, applied
consistently to the carbonyl-carbon coordinates, the carbon-alpha
coordinates and the residue strings (hence the classification vector),
leaves the score unchanged. -/
theorem polar_score_permutation_invariant (s : PolarStructure)
    (σ : Equiv.Perm (Fin s.N)) :
    polar_score (s.permute σ) = polar_score s := by
  rw [polar_score, polar_score]
  have hnum : score_numerator (s.permute σ) = score_numerator s := by
    calc score_numerator (s.permute σ)
        = ∑ i, non_polar s (σ i) * sigmoid_term s (σ i) :=
          Finset.sum_congr rfl fun i _ => by
            rw [sigmoid_term_permute]
            rfl
      _ = score_numerator s :=
          Equiv.sum_comp σ fun i => non_polar s i * sigmoid_term s i
  have hden : score_denominator (s.permute σ) = score_denominator s := by
    calc score_denominator (s.permute σ)
        = ∑ i, sigmoid_term s (σ i) :=
          Finset.sum_congr rfl fun i _ => sigmoid_term_permute s σ i
      _ = score_denominator s := Equiv.sum_comp σ fun i => sigmoid_term s i
  rw [hnum, hden]

/-- C6: with a nonzero denominator (any `N ≥ 1`), a structure none of
whose residues is classified non-polar scores 0, and a structure all of
whose residues are classified non-polar scores 1. -/
theorem polar_score_extreme_classes (s : PolarStructure) (h : 1 ≤ s.N) :
    ((∀ i, (s.names i).take 3 ∉ non_polar_residues) → polar_score s = 0) ∧
    ((∀ i, (s.names i).take 3 ∈ non_polar_residues) → polar_score s = 1) := by
  constructor
  · intro hall
    have hnum : score_numerator s = 0 :=
      Finset.sum_eq_zero fun i _ => by
        rw [non_polar, nonPolarOf, if_neg (hall i), zero_mul]
    rw [polar_score, hnum, zero_div]
  · intro hall
    have hnum : score_numerator s = score_denominator s :=
      Finset.sum_congr rfl fun i _ => by
        rw [non_polar, nonPolarOf, if_pos (hall i), one_mul]
    rw [polar_score, hnum, div_self (ne_of_gt (score_denominator_pos s h))]

/-- Witness for `polar_score_extreme_classes`: an all-lysine (charged,
`Other`-classified) structure scores 0 and an all-leucine structure
scores 1. -/
theorem polar_score_extreme_classes_witness :
    polar_score (mkSingle "LYS1") = 0 ∧ polar_score (mkSingle "LEU1") = 1 :=
  ⟨(polar_score_extreme_classes (mkSingle "LYS1") (le_refl 1)).1
      fun _ => by show "LYS1".take 3 ∉ non_polar_residues; decide,
   (polar_score_extreme_classes (mkSingle "LEU1") (le_refl 1)).2
      fun _ => by show "LEU1".take 3 ∈ non_polar_residues; decide⟩

/-- C7 counterexample: the angle weight does not decrease as `Φ` deviates
from `π`.  `Φ = 0` deviates further from `π` than `Φ = π/3`, yet its
weight is larger: `angle_weight (π/3) = 0 < 1/9 = angle_weight 0` — the
squaring makes the weight rise again once `cos(π-Φ) + 0.5` crosses 0. -/
theorem angle_weight_increases_past_pi_div_three :
    angle_weight (Real.pi / 3) < angle_weight 0 ∧
      Real.pi - Real.pi / 3 < Real.pi - 0 := by
  have h1 : angle_weight 0 = 1 / 9 := by
    rw [angle_weight, sub_zero, Real.cos_pi]
    norm_num
  have h2 : angle_weight (Real.pi / 3) = 0 := by
    rw [angle_weight, Real.cos_pi_sub, Real.cos_pi_div_three]
    norm_num
  have hpi := Real.pi_pos
  constructor
  · rw [h1, h2]; norm_num
  · linarith

/-- C7 amended: the distance weight is strictly decreasing in the
distance; the angle weight attains its maximum value 1 at `Φ = π`
(where `cos(π - Φ) = 1`), and it decreases as `Φ` deviates from `π` only
down to `Φ = π/3` — it is monotone on `[π/3, π]`, but below `π/3` it
increases again (see the counterexample). -/
theorem distance_weight_decreasing_angle_weight_peak :
    (∀ d₁ d₂ : ℝ, d₁ < d₂ → distance_weight d₂ < distance_weight d₁) ∧
    angle_weight Real.pi = 1 ∧
    (∀ phi : ℝ, angle_weight phi ≤ angle_weight Real.pi) ∧
    (∀ phi₁ phi₂ : ℝ, Real.pi / 3 ≤ phi₁ → phi₁ ≤ phi₂ → phi₂ ≤ Real.pi →
      angle_weight phi₁ ≤ angle_weight phi₂) := by
  have hmax : angle_weight Real.pi = 1 := by
    rw [angle_weight, sub_self, Real.cos_zero]
    norm_num
  refine ⟨?_, hmax, ?_, ?_⟩
  · intro d₁ d₂ hd
    rw [distance_weight, distance_weight]
    have h1 : (0 : ℝ) < 1 + Real.exp (d₁ - 1) := by positivity
    have h2 : Real.exp (d₁ - 1) < Real.exp (d₂ - 1) :=
      Real.exp_lt_exp.mpr (by linarith)
    exact one_div_lt_one_div_of_lt h1 (by linarith)
  · intro phi
    rw [hmax, angle_weight]
    have hc1 : Real.cos (Real.pi - phi) ≤ 1 := Real.cos_le_one _
    have hc2 : -1 ≤ Real.cos (Real.pi - phi) := Real.neg_one_le_cos _
    rw [div_pow, div_le_one (by norm_num : (0 : ℝ) < 1.5 ^ 2)]
    nlinarith [hc1, hc2]
  · intro phi₁ phi₂ h1 h2 h3
    have hpi := Real.pi_pos
    have hp1 : 0 ≤ phi₁ := by linarith
    have hc12 : Real.cos phi₂ ≤ Real.cos phi₁ :=
      Real.cos_le_cos_of_nonneg_of_le_pi hp1 h3 h2
    have hc1 : Real.cos phi₁ ≤ 1 / 2 := by
      have := Real.cos_le_cos_of_nonneg_of_le_pi
        (by linarith : (0 : ℝ) ≤ Real.pi / 3) (h2.trans h3) h1
      rwa [Real.cos_pi_div_three] at this
    rw [angle_weight, angle_weight, Real.cos_pi_sub, Real.cos_pi_sub]
    have hx1 : (0 : ℝ) ≤ (-Real.cos phi₁ + 0.5) / 1.5 := by
      rw [div_nonneg_iff]
      left
      constructor <;> linarith
    have hx12 : (-Real.cos phi₁ + 0.5) / 1.5 ≤ (-Real.cos phi₂ + 0.5) / 1.5 :=
      (div_le_div_right (by norm_num)).mpr (by linarith)
    exact pow_le_pow_left₀ hx1 hx12 2

/-- Witness for `distance_weight_decreasing_angle_weight_peak` at concrete
distances and angles. -/
theorem distance_weight_decreasing_angle_weight_peak_witness :
    distance_weight 2 < distance_weight 1 ∧
      angle_weight 0 ≤ angle_weight Real.pi :=
  ⟨distance_weight_decreasing_angle_weight_peak.1 1 2 (by norm_num),
   distance_weight_decreasing_angle_weight_peak.2.2.1 0⟩

/-- C8: classification is a total function of the first three characters
of the residue string into three mutually exclusive categories — the
non-polar indicator is 1 exactly on `non_polar_residues`, the polar
indicator is 1 exactly on `polar_residues`, every other name yields 0 in
both, and no name sets both indicators. -/
theorem classify_polarity_partition (r : String) :
    (nonPolarOf r = 1 ↔ r.take 3 ∈ non_polar_residues) ∧
    (polarOf r = 1 ↔ r.take 3 ∈ polar_residues) ∧
    (r.take 3 ∉ non_polar_residues → r.take 3 ∉ polar_residues →
      nonPolarOf r = 0 ∧ polarOf r = 0) ∧
    ¬(nonPolarOf r = 1 ∧ polarOf r = 1) := by
  by_cases hnp : r.take 3 ∈ non_polar_residues
  · have hpol : r.take 3 ∉ polar_residues := by
      intro hp
      have hnp2 := hnp
      simp only [non_polar_residues, List.mem_cons, List.not_mem_nil,
        or_false] at hnp2
      rcases hnp2 with h | h | h | h | h | h <;> rw [h] at hp <;>
        revert hp <;> decide
    refine ⟨?_, ?_, ?_, ?_⟩
    · simp [nonPolarOf, hnp]
    · simp [polarOf, hnp, hpol]
    · intro hn _
      exact absurd hnp hn
    · rw [polarOf, if_pos hnp]
      rintro ⟨-, h1⟩
      norm_num at h1
  · by_cases hpol : r.take 3 ∈ polar_residues
    · refine ⟨?_, ?_, ?_, ?_⟩
      · simp [nonPolarOf, hnp]
      · simp [polarOf, hnp, hpol]
      · intro _ hp
        exact absurd hpol hp
      · rw [nonPolarOf, if_neg hnp]
        rintro ⟨h1, -⟩
        norm_num at h1
    · refine ⟨?_, ?_, ?_, ?_⟩
      · simp [nonPolarOf, hnp]
      · simp [polarOf, hnp, hpol]
      · intro _ _
        exact ⟨by rw [nonPolarOf, if_neg hnp],
          by rw [polarOf, if_neg hnp, if_neg hpol]⟩
      · rw [nonPolarOf, if_neg hnp]
        rintro ⟨h1, -⟩
        norm_num at h1

/-- Witness for `classify_polarity_partition` on a non-polar, a polar and
an `Other` (charged) residue string. -/
theorem classify_polarity_partition_witness :
    nonPolarOf "VAL1" = 1 ∧ polarOf "SER2" = 1 ∧
      nonPolarOf "LYS3" = 0 ∧ polarOf "LYS3" = 0 :=
  ⟨(classify_polarity_partition "VAL1").1.mpr (by decide),
   (classify_polarity_partition "SER2").2.1.mpr (by decide),
   ((classify_polarity_partition "LYS3").2.2.1 (by decide) (by decide)).1,
   ((classify_polarity_partition "LYS3").2.2.1 (by decide) (by decide)).2⟩

/-- C9: every exposure term lies strictly between 0 and 1 (the logistic
function never reaches its bounds at finite arguments), so for every
nonempty structure the denominator is strictly positive and the division
is well defined; in particular a single-residue structure has denominator
exactly `1/2` — in exact arithmetic the zero-denominator case is
unreachable for `N ≥ 1`. -/
theorem exposure_terms_and_denominator (s : PolarStructure) (h : 1 ≤ s.N) :
    (∀ i, 0 < sigmoid_term s i ∧ sigmoid_term s i < 1) ∧
      0 < score_denominator s ∧
      (s.N = 1 → score_denominator s = 1 / 2) :=
  ⟨fun i => ⟨sigmoid_term_pos s i, sigmoid_term_lt_one s i⟩,
   score_denominator_pos s h,
   fun h1 => score_denominator_N_one s h1⟩

/-- Witness for `exposure_terms_and_denominator` on a concrete
single-residue structure. -/
theorem exposure_terms_and_denominator_witness :
    0 < score_denominator (mkSingle "TRP1") ∧
      score_denominator (mkSingle "TRP1") = 1 / 2 :=
  ⟨(exposure_terms_and_denominator (mkSingle "TRP1") (le_refl 1)).2.1,
   (exposure_terms_and_denominator (mkSingle "TRP1") (le_refl 1)).2.2 rfl⟩

/-- C10: the batch driver copies exactly the files whose score was
computed and is at most the threshold (the boundary is inclusive); files
whose score computation failed are never copied; and the returned
`passed_files` count equals the number of files copied. -/
theorem filter_driver_copies_exactly_passing
    (files : List (String × RawStructure)) (t : ℝ) :
    (filter_pdbs_by_polar_score files t).1 = files.filterMap (copy_decision t) ∧
    (filter_pdbs_by_polar_score files t).2 =
      ((filter_pdbs_by_polar_score files t).1).length := by
  rw [filter_pdbs_by_polar_score, foldl_filter_spec]
  simp
